import Mathlib

/-!
Verification of the appointment-reminder backend (`app.py`, `validators.py`).

The Python source is shallowly embedded: pure helpers become Lean functions,
the module-level mutable state (`scheduled_jobs`, the APScheduler job queue)
becomes an explicit state record with explicit state-passing operations, and
code that can raise becomes `Option`/`Except`-valued.  External services
(SMTP, Twilio, the wall clock, `datetime.fromisoformat`) are modelled as
explicit parameters.  All definitions are executable.
-/

namespace ARBot

/-! ## Python string primitives -/

/-- Python truthiness of a string field (`if s:`): `None` and `""` are both
falsy; absent optional fields are modelled as `""`. -/
def truthy (s : String) : Bool := s != ""

/-- The ASCII whitespace characters matched by Python `str.strip()` and the
regex class `\s` (the unicode-only whitespace code points are outside the
model's scope; no claim involves them). -/
def isPySpace (c : Char) : Bool :=
  c = ' ' || c = '\t' || c = '\n' || c = '\x0d' || c = '\x0b' || c = '\x0c'

/-- Python `str.strip()` on a character list. -/
def pyStripList (l : List Char) : List Char :=
  ((l.dropWhile isPySpace).reverse.dropWhile isPySpace).reverse

/-- Python `str.strip()`. -/
def pyStrip (s : String) : String := ⟨pyStripList s.data⟩

/-- Single-quote a string, as Python `repr` does for the strings appearing in
the error messages modelled below (escaping of quotes inside the string is
outside the model's scope; no claim involves such strings). -/
def qu (s : String) : String := "\x27" ++ s ++ "\x27"

def digitVal (c : Char) : Nat := c.toNat - 48

def digit2 (a b : Char) : Nat := digitVal a * 10 + digitVal b

/-! ## `validators.py` -/

/-- Model of `sanitize_user_input(text, max_length)` from `validators.py`: return `""`
for falsy input, else strip, then truncate to `max_length`, then delete every
`<` and `>`. -/
def sanitize_user_input (text : String) (max_length : Nat) : String :=
  if text = "" then ""
  else
    let t1 := pyStrip text
    let t2 := if t1.length > max_length then ⟨t1.data.take max_length⟩ else t1
    ⟨t2.data.filter (fun c => c != '<' && c != '>')⟩

/-- Model of `sanitize_user_input` with its default `max_length=500`. -/
def sanitize_user_input_default (text : String) : String :=
  sanitize_user_input text 500

/-- The ordered alternatives of CPython's `_strptime` regex fragment for `%m`,
`(?P<m>1[0-2]|0[1-9]|[1-9])`: each candidate is the parsed month value and the
remaining input. -/
def monthCands : List Char → List (Nat × List Char)
  | a :: b :: rest =>
      (if a = '1' ∧ (b = '0' ∨ b = '1' ∨ b = '2') then [(digit2 a b, rest)] else []) ++
      (if a = '0' ∧ b.isDigit ∧ b ≠ '0' then [(digit2 a b, rest)] else []) ++
      (if a.isDigit ∧ a ≠ '0' then [(digitVal a, b :: rest)] else [])
  | [a] => if a.isDigit ∧ a ≠ '0' then [(digitVal a, [])] else []
  | [] => []

/-- Ordered alternatives for `%d`, `(?P<d>3[01]|[12]\d|0[1-9]|[1-9])`. -/
def dayCands : List Char → List (Nat × List Char)
  | a :: b :: rest =>
      (if a = '3' ∧ (b = '0' ∨ b = '1') then [(digit2 a b, rest)] else []) ++
      (if (a = '1' ∨ a = '2') ∧ b.isDigit then [(digit2 a b, rest)] else []) ++
      (if a = '0' ∧ b.isDigit ∧ b ≠ '0' then [(digit2 a b, rest)] else []) ++
      (if a.isDigit ∧ a ≠ '0' then [(digitVal a, b :: rest)] else [])
  | [a] => if a.isDigit ∧ a ≠ '0' then [(digitVal a, [])] else []
  | [] => []

/-- Ordered alternatives for `%H`, `(?P<H>2[0-3]|[0-1]\d|\d)`. -/
def hourCands : List Char → List (Nat × List Char)
  | a :: b :: rest =>
      (if a = '2' ∧ (b = '0' ∨ b = '1' ∨ b = '2' ∨ b = '3') then [(digit2 a b, rest)] else []) ++
      (if (a = '0' ∨ a = '1') ∧ b.isDigit then [(digit2 a b, rest)] else []) ++
      (if a.isDigit then [(digitVal a, b :: rest)] else [])
  | [a] => if a.isDigit then [(digitVal a, [])] else []
  | [] => []

/-- Ordered alternatives for `%M`, `(?P<M>[0-5]\d|\d)`. -/
def minuteCands : List Char → List (Nat × List Char)
  | a :: b :: rest =>
      (if a.isDigit ∧ a ≤ '5' ∧ b.isDigit then [(digit2 a b, rest)] else []) ++
      (if a.isDigit then [(digitVal a, b :: rest)] else [])
  | [a] => if a.isDigit then [(digitVal a, [])] else []
  | [] => []

/-- Leftmost-first match of `strptime(date_str, "%Y-%m-%d")`'s regex
`\d\d\d\d-(month)-(day)` against a prefix of the input, returning year,
month, day and the unconsumed remainder (Python's "unconverted data"). -/
def dateMatch (l : List Char) : Option (Nat × Nat × Nat × List Char) :=
  match l with
  | y1 :: y2 :: y3 :: y4 :: '-' :: r1 =>
    if y1.isDigit && y2.isDigit && y3.isDigit && y4.isDigit then
      (monthCands r1).findSome? (fun mc =>
        match mc.2 with
        | '-' :: r3 =>
          (dayCands r3).findSome? (fun dc =>
            some (digit2 y1 y2 * 100 + digit2 y3 y4, mc.1, dc.1, dc.2))
        | _ => none)
    else none
  | _ => none

/-- Leftmost-first match of `strptime(time_str, "%H:%M")`'s regex against a
prefix of the input, returning hour, minute and the remainder. -/
def timeMatch (l : List Char) : Option (Nat × Nat × List Char) :=
  (hourCands l).findSome? (fun hc =>
    match hc.2 with
    | ':' :: r2 =>
      (minuteCands r2).findSome? (fun mc => some (hc.1, mc.1, mc.2))
    | _ => none)

def isLeap (y : Nat) : Bool := (y % 4 = 0 && y % 100 ≠ 0) || y % 400 = 0

def daysInMonth (y m : Nat) : Nat :=
  if m = 2 then (if isLeap y then 29 else 28)
  else if m = 4 ∨ m = 6 ∨ m = 9 ∨ m = 11 then 30
  else 31

/-- Model of `validate_datetime(date_str, time_str)` from `validators.py`:
`strptime` the date with `%Y-%m-%d`, then the time with `%H:%M`; any
`ValueError` is reported as `"Invalid date or time format: " + str(e)`.
The `datetime.combine` call never raises once both parses succeeded. -/
def validate_datetime (date_str time_str : String) : Bool × String :=
  match dateMatch date_str.data with
  | none =>
      (false, "Invalid date or time format: time data " ++ qu date_str ++
        " does not match format " ++ qu "%Y-%m-%d")
  | some (y, m, d, rest) =>
    if rest ≠ [] then
      (false, "Invalid date or time format: unconverted data remains: " ++ String.mk rest)
    else if y = 0 then
      (false, "Invalid date or time format: year 0 is out of range")
    else if daysInMonth y m < d then
      (false, "Invalid date or time format: day is out of range for month")
    else
      match timeMatch time_str.data with
      | none =>
          (false, "Invalid date or time format: time data " ++ qu time_str ++
            " does not match format " ++ qu "%H:%M")
      | some (_, _, trest) =>
        if trest ≠ [] then
          (false, "Invalid date or time format: unconverted data remains: " ++ String.mk trest)
        else (true, "")

/-- Character class `[a-zA-Z0-9._%+-]` (the local part of the email regex). -/
def localChar (c : Char) : Bool :=
  c.isAlphanum || c = '.' || c = '_' || c = '%' || c = '+' || c = '-'

/-- Character class `[a-zA-Z0-9.-]` (the domain part of the email regex). -/
def domChar (c : Char) : Bool := c.isAlphanum || c = '.' || c = '-'

/-- Drop at most one trailing newline: a single trailing newline is tolerated by the `$` anchor of Python's
`re.match`. -/
def dropTrailingNewline (l : List Char) : List Char :=
  if l.getLast? = some '\n' then l.dropLast else l

/-- Split a domain at its last dot: the `\.` of the email regex must be
followed by the alphabetic top-level domain running to the end. -/
def lastDotSplit (l : List Char) : Option (List Char × List Char) :=
  let r := l.reverse
  let tld := r.takeWhile (fun c => c != '.')
  match r.dropWhile (fun c => c != '.') with
  | '.' :: before => some (before.reverse, tld.reverse)
  | _ => none

/-- Model of `validate_email(email)` from `validators.py`: falsy input is invalid,
otherwise the input must match `^[a-zA-Z0-9._%+-]+@[a-zA-Z0-9.-]+\.[a-zA-Z]{2,}$`
(equivalently: after dropping at most one trailing newline, exactly one `@`,
a nonempty local part over its class, and a domain whose last dot is followed
by at least two letters, with a nonempty domain-character run before it). -/
def validate_email (email : String) : Bool :=
  if email = "" then false
  else
    let s1 : String := ⟨dropTrailingNewline email.data⟩
    match s1.splitOn "@" with
    | [loc, dom] =>
      loc != "" && loc.data.all localChar &&
      (match lastDotSplit dom.data with
       | some (bef, tld) =>
         bef ≠ [] && bef.all domChar && tld.all Char.isAlpha && decide (2 ≤ tld.length)
       | none => false)
    | _ => false

/-- The separator characters removed by `re.sub(r"[\s\-\(\)]", "", phone)`. -/
def sepChar (c : Char) : Bool := isPySpace c || c = '-' || c = '(' || c = ')'

/-- Model of `validate_phone(phone)` from `validators.py`: falsy input is invalid;
otherwise strip separators and require 10 to 15 digits. -/
def validate_phone (phone : String) : Bool :=
  if phone = "" then false
  else
    let clean := phone.data.filter (fun c => !sepChar c)
    clean != [] && clean.all Char.isDigit &&
      decide (10 ≤ clean.length) && decide (clean.length ≤ 15)

/-- An appointment payload as seen by `validate_appointment_data`; absent or
`None` fields are modelled as `""` (identical truthiness). -/
structure ApptData where
  date : String
  time : String
  subject : String
  email : String
  phone : String

/-- Model of `validate_appointment_data(data)` from `validators.py`: required-field
checks in source order, then `validate_datetime`, then the optional email and
phone checks; the first failure's reason is returned alone. -/
def validate_appointment_data (d : ApptData) : Bool × String :=
  if d.date = "" then (false, "Date is required")
  else if d.time = "" then (false, "Time is required")
  else if d.subject = "" then (false, "Subject is required")
  else
    let v := validate_datetime d.date d.time
    if v.1 = false then (false, v.2)
    else if d.email ≠ "" ∧ validate_email d.email = false then
      (false, "Invalid email format")
    else if d.phone ≠ "" ∧ validate_phone d.phone = false then
      (false, "Invalid phone number format")
    else (true, "")

/-! ## Concrete datetime model (`datetime.fromisoformat`, `astimezone`, `strftime`)

`app.py` always calls `datetime.fromisoformat` on
`iso_string.replace('Z', '+00:00')`.  The scheduler operations below are
parameterised over an arbitrary parse function (the stdlib is an external
collaborator); `isoParse` is a concrete instance covering the timezone-aware
ISO-8601 forms `YYYY-MM-DD<sep>HH:MM[:SS[.ffffff]]±HH:MM` (naive inputs are
outside the model's scope, since `astimezone` on a naive datetime depends on
the host system's timezone). -/

/-- Model of `s.replace('Z', '+00:00')` as done at every `fromisoformat` call site:
for the single-character pattern `"Z"`, Python's `str.replace` substitutes
every occurrence of the character. -/
def zrep (s : String) : String :=
  ⟨(s.data.map (fun c => if c = 'Z' then "+00:00".data else [c])).flatten⟩

/-- Days since 1970-01-01 of a civil date (Gregorian, proleptic). -/
def daysFromCivil (y mo dy : Nat) : Int :=
  let y' : Int := if mo ≤ 2 then (y : Int) - 1 else (y : Int)
  let era := Int.fdiv y' 400
  let yoe := (y' - era * 400).toNat
  let mp := (mo + 9) % 12
  let doy := (153 * mp + 2) / 5 + dy - 1
  let doe := yoe * 365 + yoe / 4 - yoe / 100 + doy
  era * 146097 + (doe : Int) - 719468

/-- Civil date (year, month, day) of a days-since-epoch count. -/
def civilFromDays (z : Int) : Int × Nat × Nat :=
  let z2 := z + 719468
  let era := Int.fdiv z2 146097
  let doe := (z2 - era * 146097).toNat
  let yoe := (doe - doe / 1460 + doe / 36524 - doe / 146096) / 365
  let doy := doe - (365 * yoe + yoe / 4 - yoe / 100)
  let mp := (5 * doy + 2) / 153
  let dy := doy - (153 * mp + 2) / 5 + 1
  let mo := if mp < 10 then mp + 3 else mp - 9
  (if mo ≤ 2 then (yoe : Int) + era * 400 + 1 else (yoe : Int) + era * 400, mo, dy)

/-- Parse a `±HH:MM` UTC offset to signed seconds. -/
def parseOffsetSecs : List Char → Option Int
  | [sg, h1, h2, ':', m1, m2] =>
    if (sg = '+' ∨ sg = '-') ∧ h1.isDigit ∧ h2.isDigit ∧ m1.isDigit ∧ m2.isDigit then
      let hh := digit2 h1 h2
      let mm := digit2 m1 m2
      if hh ≤ 23 ∧ mm ≤ 59 then
        let v : Int := hh * 3600 + mm * 60
        some (if sg = '-' then -v else v)
      else none
    else none
  | _ => none

/-- Skip an optional fractional-seconds field `.f{1,6}` (its value does not
affect the second-resolution model). -/
def dropFrac : List Char → Option (List Char)
  | '.' :: r =>
      let ds := r.takeWhile Char.isDigit
      if 1 ≤ ds.length ∧ ds.length ≤ 6 then some (r.drop ds.length) else none
  | r => some r

/-- Parse `HH:MM[:SS[.ffffff]]±HH:MM` to (seconds of day, offset seconds). -/
def parseTimeOffset : List Char → Option (Nat × Int)
  | h1 :: h2 :: ':' :: m1 :: m2 :: rest =>
    if h1.isDigit ∧ h2.isDigit ∧ m1.isDigit ∧ m2.isDigit then
      let hh := digit2 h1 h2
      let mm := digit2 m1 m2
      if hh ≤ 23 ∧ mm ≤ 59 then
        match rest with
        | ':' :: s1 :: s2 :: rest2 =>
          if s1.isDigit ∧ s2.isDigit ∧ digit2 s1 s2 ≤ 59 then
            match dropFrac rest2 with
            | some rest3 =>
              (parseOffsetSecs rest3).map
                (fun off => (hh * 3600 + mm * 60 + digit2 s1 s2, off))
            | none => none
          else none
        | _ =>
          (parseOffsetSecs rest).map (fun off => (hh * 3600 + mm * 60, off))
      else none
    else none
  | _ => none

/-- Concrete `datetime.fromisoformat` instance (timezone-aware subset),
returning epoch seconds.  The date/time separator may be any single
character, as in CPython. -/
def isoParse (s : String) : Option Int :=
  match s.data with
  | y1 :: y2 :: y3 :: y4 :: '-' :: m1 :: m2 :: '-' :: d1 :: d2' :: rest =>
    if y1.isDigit ∧ y2.isDigit ∧ y3.isDigit ∧ y4.isDigit ∧ m1.isDigit ∧ m2.isDigit
        ∧ d1.isDigit ∧ d2'.isDigit then
      let y := digit2 y1 y2 * 100 + digit2 y3 y4
      let mo := digit2 m1 m2
      let dy := digit2 d1 d2'
      if 1 ≤ y ∧ 1 ≤ mo ∧ mo ≤ 12 ∧ 1 ≤ dy ∧ dy ≤ daysInMonth y mo then
        match rest with
        | _sep :: t =>
          match parseTimeOffset t with
          | some (sod, off) => some (daysFromCivil y mo dy * 86400 + sod - off)
          | none => none
        | [] => none
      else none
    else none
  | _ => none

def weekdayNames : List String :=
  ["Thursday", "Friday", "Saturday", "Sunday", "Monday", "Tuesday", "Wednesday"]

def monthNames : List String :=
  ["January", "February", "March", "April", "May", "June", "July",
   "August", "September", "October", "November", "December"]

/-- Zero-pad to two digits, as `%d`, `%I` and `%M` do. -/
def pad2 (n : Nat) : String := if n < 10 then "0" ++ toString n else toString n

/-- Render `strftime('%A, %B %d, %Y at %I:%M %p')` of an epoch instant shifted into
the fixed IST display timezone (UTC+5:30, 19800 seconds). -/
def renderIST (epoch : Int) : String :=
  let t := epoch + 19800
  let z := Int.fdiv t 86400
  let sod := (t - z * 86400).toNat
  let h := sod / 3600
  let mi := sod % 3600 / 60
  let c := civilFromDays z
  let wd := weekdayNames.getD (Int.emod z 7).toNat ""
  let hour12 := if h % 12 = 0 then 12 else h % 12
  let ampm := if h < 12 then "AM" else "PM"
  wd ++ ", " ++ monthNames.getD (c.2.1 - 1) "" ++ " " ++ pad2 c.2.2 ++ ", " ++
    toString c.1 ++ " at " ++ pad2 hour12 ++ ":" ++ pad2 mi ++ " " ++ ampm

/-- Model of `format_datetime(iso_string)` from `app.py`: parse the `Z`-replaced string
as UTC-aware, convert to IST, and render; `none` models the `ValueError`
raised when parsing fails. -/
def format_datetime (iso_string : String) : Option String :=
  (isoParse (zrep iso_string)).map renderIST

/-! ## Notification gateway (`send_email`, `send_sms` from `app.py`) -/

/-- The Python exception classes distinguished by `send_email`'s handlers:
`smtplib.SMTPAuthenticationError`, any other `smtplib.SMTPException`, and any
other `Exception`. -/
inductive PyExc
  | smtpAuthError (msg : String)
  | smtpOtherError (msg : String)
  | otherExc (msg : String)
deriving DecidableEq

/-- Outcomes of the externally-provided steps inside `send_email`'s `try`
block: message assembly, SMTP connect, login, and `send_message`. -/
structure SmtpEnv where
  build : Except PyExc Unit
  connect : Except PyExc Unit
  login : Except PyExc Unit
  send : Except PyExc Unit

/-- The body of `send_email`'s `try` block: each step runs only if the
previous ones succeeded; the first exception aborts the rest. -/
def send_email_body (env : SmtpEnv) : Except PyExc Unit := do
  let _ ← env.build
  let _ ← env.connect
  let _ ← env.login
  env.send

/-- Model of `send_email(to_email, subject, html_content)` from `app.py`: run the
`try` block; each of the three `except` clauses returns `False`; reaching the
end returns `True`. -/
def send_email (env : SmtpEnv) : Bool :=
  match send_email_body env with
  | Except.ok _ => true
  | Except.error (PyExc.smtpAuthError _) => false
  | Except.error (PyExc.smtpOtherError _) => false
  | Except.error (PyExc.otherExc _) => false

/-- Process-start SMS configuration: the three Twilio environment variables
("" models an absent variable) and whether the Twilio import/client
construction succeeded (external).  `sms_enabled` and `twilio_client` are
assigned together in `app.py` and are truthy under exactly this condition. -/
structure SmsConfig where
  accountSid : String
  authToken : String
  phoneNumber : String
  importOk : Bool

def sms_enabled (cfg : SmsConfig) : Bool :=
  truthy cfg.accountSid && truthy cfg.authToken && truthy cfg.phoneNumber && cfg.importOk

/-- Observable side effects of the SMS transport: delivery attempts handed to
`twilio_client.messages.create`, and those that succeeded. -/
structure SmsState where
  attempted : List (String × String)
  delivered : List (String × String)
deriving DecidableEq

/-- Model of `send_sms(to_phone, message)` from `app.py`: if SMS is not enabled,
return `False` immediately (no attempt); otherwise attempt delivery, and
return `False` if the transport raises (`transportOk = false`). -/
def send_sms (cfg : SmsConfig) (transportOk : Bool) (st : SmsState)
    (to_phone message : String) : Bool × SmsState :=
  if !sms_enabled cfg then (false, st)
  else
    let st1 : SmsState := { st with attempted := st.attempted ++ [(to_phone, message)] }
    if transportOk then (true, { st1 with delivered := st1.delivered ++ [(to_phone, message)] })
    else (false, st1)

/-! ## Notification content templates (f-strings in `send_reminder`) -/

/-- The reminder email body f-string from `send_reminder`, with
`{subject}` and `{format_datetime(datetime_str)}` spliced in. -/
def reminder_email_html (subject fmtTime : String) : String :=
  "\n        <div style=\"font-family: Arial, sans-serif; max-width: 600px; margin: 0 auto;\">\n            <h2 style=\"color: #ef4444;\">⏰ Appointment Reminder</h2>\n            <p>This is your scheduled appointment reminder!</p>\n            <div style=\"background: #fef2f2; padding: 20px; border-radius: 10px; margin: 20px 0; border-left: 4px solid #ef4444;\">\n                <h3 style=\"margin-top: 0; color: #991b1b;\">Time for your appointment</h3>\n                <p><strong>Subject:</strong> "
  ++ subject ++
  "</p>\n                <p><strong>Scheduled Time:</strong> "
  ++ fmtTime ++
  "</p>\n            </div>\n            <p style=\"color: #64748b; font-size: 14px;\">- Your Appointment Bot</p>\n        </div>\n        "

/-- The reminder SMS body f-string from `send_reminder`. -/
def reminder_sms (subject fmtTime : String) : String :=
  "⏰ APPOINTMENT REMINDER\n\n\"" ++ subject ++ "\"\n\nScheduled for: "
  ++ fmtTime ++ "\n\nTime to get ready!"

/-! ## Appointment scheduler (`app.py` module state and endpoints)

The process state is `scheduled_jobs` (appointment id → pending APScheduler
job) plus the APScheduler queue itself.  Appointment ids are
`datetime.now().timestamp()` strings; they are modelled as the `Nat`
timestamp (the rendering to a string is injective).  A ghost `status` map —
`app.py` stores no appointment record — tracks the lifecycle phase each
appointment has observably reached: `pending` on scheduling, `reminderFired`
when its reminder ran, `followUpFired` when its follow-up ran, `cancelled` on
successful cancellation.  Follow-up jobs carry their appointment id as ghost
data only (the code passes `[subject, email, phone, datetime_str]`, no id). -/

inductive JobKind
  | reminder
  | followUp
deriving DecidableEq

/-- A one-shot APScheduler job (`scheduler.add_job(..., 'date', run_date,
args)`), with its synthetic job identity `jid`. -/
structure Job where
  jid : Nat
  kind : JobKind
  runDate : Int
  apptId : Nat
  subject : String
  email : String
  phone : String
  datetimeStr : String
deriving DecidableEq

inductive Status
  | pending
  | reminderFired
  | followUpFired
  | cancelled
deriving DecidableEq

/-- The scheduler's mutable process state. -/
structure St where
  nextJid : Nat
  jobs : List Job
  registry : Nat → Option Nat
  issued : List Nat
  status : Nat → Option Status

/-- The state at process start: empty queue, empty `scheduled_jobs`. -/
def initSt : St :=
  { nextJid := 0, jobs := [], registry := fun _ => none, issued := [],
    status := fun _ => none }

inductive SchedResp
  | badRequest (msg : String)
  | serverError (msg : String)
  | success (appointmentId : Nat)
deriving DecidableEq

inductive CancelResp
  | cancelled
  | notFound
deriving DecidableEq

/-- HTTP status code of a schedule response. -/
def SchedResp.code : SchedResp → Nat
  | .badRequest _ => 400
  | .serverError _ => 500
  | .success _ => 200

/-- HTTP status code of a cancel response. -/
def CancelResp.code : CancelResp → Nat
  | .cancelled => 200
  | .notFound => 404

/-- Text `str(e)` of the `ValueError` raised by `datetime.fromisoformat`. -/
def isoErrMsg (s : String) : String := "Invalid isoformat string: " ++ qu s

variable (fromisoformat : String → Option Int)

/-- Endpoint `POST /api/appointments/schedule` (`schedule_appointment` in `app.py`).
Falsy `dateTime` or `subject` gives a 400.  Otherwise the confirmation
notifications are rendered (each calls `format_datetime`, i.e. parses the
`Z`-replaced `dateTime`) and sent best-effort, the reminder job is
registered at the parsed `run_date`, and `scheduled_jobs[id]` is set.  If
parsing raises — whether inside a confirmation template or at the
`fromisoformat` call — the handler's `except` returns a 500 with `str(e)`
and no job has been registered. -/
def schedule_appointment (st : St) (now : Nat)
    (dateTime subject email phone : String) : SchedResp × St :=
  if dateTime = "" ∨ subject = "" then (.badRequest "Missing required fields", st)
  else
    match fromisoformat (zrep dateTime) with
    | none => (.serverError (isoErrMsg (zrep dateTime)), st)
    | some t =>
      let appointment_id := now
      let job : Job :=
        { jid := st.nextJid, kind := .reminder, runDate := t, apptId := appointment_id,
          subject := subject, email := email, phone := phone, datetimeStr := dateTime }
      (.success appointment_id,
       { nextJid := st.nextJid + 1,
         jobs := st.jobs ++ [job],
         registry := fun i => if i = appointment_id then some st.nextJid else st.registry i,
         issued := appointment_id :: st.issued,
         status := fun i => if i = appointment_id then some .pending else st.status i })

/-- Model of `send_reminder(appointment_id, subject, email, phone, datetime_str)` from
`app.py`: send the reminder on each truthy channel (external), then — if
either channel is truthy — register the follow-up job at
`fromisoformat(datetime_str) + 2 minutes`, then delete
`scheduled_jobs[appointment_id]`.  If re-parsing `datetime_str` raises
(impossible for jobs created by `schedule_appointment`), the exception
escapes into APScheduler before the follow-up registration and the registry
cleanup, leaving the state unchanged. -/
def send_reminder (st : St) (appointment_id : Nat)
    (subject email phone datetime_str : String) : St :=
  match fromisoformat (zrep datetime_str) with
  | none => st
  | some t =>
    let st1 :=
      if truthy email || truthy phone then
        { st with
          jobs := st.jobs ++
            [{ jid := st.nextJid, kind := .followUp, runDate := t + 120,
               apptId := appointment_id, subject := subject, email := email,
               phone := phone, datetimeStr := datetime_str }],
          nextJid := st.nextJid + 1 }
      else st
    { st1 with
      registry := fun i => if i = appointment_id then none else st1.registry i,
      status := fun i => if i = appointment_id then some .reminderFired else st1.status i }

/-- Model of `send_late_reminder(subject, email, phone, datetime_str)` from `app.py`:
sends the follow-up notifications (external); the ghost status records that
the follow-up for this appointment has fired. -/
def send_late_reminder (st : St) (appointment_id : Nat) : St :=
  { st with
    status := fun i => if i = appointment_id then some .followUpFired else st.status i }

/-- The APScheduler substrate firing a due one-shot job: the job is removed
from the queue and its callable runs. -/
def fireJob (st : St) (jid : Nat) : St :=
  match st.jobs.find? (fun j => j.jid == jid) with
  | none => st
  | some j =>
    let st' : St := { st with jobs := st.jobs.filter (fun x => x.jid != jid) }
    match j.kind with
    | .reminder => send_reminder fromisoformat st' j.apptId j.subject j.email j.phone j.datetimeStr
    | .followUp => send_late_reminder st' j.apptId

/-- Endpoint `DELETE /api/appointments/<id>` (`cancel_appointment` in `app.py`): if
`id` is a key of `scheduled_jobs`, remove that job from APScheduler and
delete the entry (ghost status: cancelled); otherwise 404. -/
def cancel_appointment (st : St) (appointment_id : Nat) : CancelResp × St :=
  match st.registry appointment_id with
  | some jid =>
    (.cancelled,
     { st with
       jobs := st.jobs.filter (fun x => x.jid != jid),
       registry := fun i => if i = appointment_id then none else st.registry i,
       status := fun i => if i = appointment_id then some .cancelled else st.status i })
  | none => (.notFound, st)

/-- One observable transition of the scheduler process: an HTTP schedule
request (with the wall clock strictly after every instant at which an id was
previously issued — `datetime.now()` is strictly increasing at timestamp
resolution), the firing of a queued job, or an HTTP cancel request. -/
inductive Step (st : St) : St → Prop
  | schedule (now : Nat) (dateTime subject email phone : String)
      (hclock : ∀ i ∈ st.issued, i < now) :
      Step st (schedule_appointment fromisoformat st now dateTime subject email phone).2
  | fire (jid : Nat) (hj : ∃ j ∈ st.jobs, j.jid = jid) :
      Step st (fireJob fromisoformat st jid)
  | cancel (appointment_id : Nat) :
      Step st (cancel_appointment st appointment_id).2

/-- State invariant of the scheduler process, established at `initSt` and
preserved by every `Step`. -/
structure Inv (st : St) : Prop where
  jids_lt : ∀ j ∈ st.jobs, j.jid < st.nextJid
  jids_inj : ∀ j ∈ st.jobs, ∀ j2 ∈ st.jobs, j.jid = j2.jid → j = j2
  appt_inj : ∀ j ∈ st.jobs, ∀ j2 ∈ st.jobs, j.apptId = j2.apptId → j = j2
  appt_issued : ∀ j ∈ st.jobs, j.apptId ∈ st.issued
  reg_sound : ∀ id jid, st.registry id = some jid →
      ∃ j ∈ st.jobs, j.jid = jid ∧ j.kind = JobKind.reminder ∧ j.apptId = id
  rem_reg : ∀ j ∈ st.jobs, j.kind = JobKind.reminder → st.registry j.apptId = some j.jid
  reg_pending : ∀ id, (st.registry id).isSome → st.status id = some Status.pending
  pending_reg : ∀ id, st.status id = some Status.pending → (st.registry id).isSome
  fu_fired : ∀ j ∈ st.jobs, j.kind = JobKind.followUp →
      st.status j.apptId = some Status.reminderFired
  status_issued : ∀ id, (st.status id).isSome ↔ id ∈ st.issued
  parse_ok : ∀ j ∈ st.jobs, (fromisoformat (zrep j.datetimeStr)).isSome

/-- In a job list with injective `jid`s, `find?` by a member's `jid` returns
that member. -/
theorem find?_eq_some_of_jid_inj {l : List Job}
    (hinj : ∀ x ∈ l, ∀ y ∈ l, x.jid = y.jid → x = y) {j : Job} (hj : j ∈ l) :
    l.find? (fun x => x.jid == j.jid) = some j := by
  induction l with
  | nil => cases hj
  | cons a l ih =>
    by_cases h : a.jid = j.jid
    · have ha : a = j := hinj a (List.mem_cons_self a l) j hj h
      subst ha
      exact List.find?_cons_of_pos _ (by simp)
    · rw [List.find?_cons_of_neg _ (by simp [h])]
      have hj' : j ∈ l := by
        rcases List.mem_cons.mp hj with rfl | h'
        · exact absurd rfl h
        · exact h'
      exact ih (fun x hx y hy => hinj x (List.mem_cons_of_mem _ hx) y (List.mem_cons_of_mem _ hy)) hj'

theorem Inv_init : Inv fromisoformat initSt := by
  constructor <;> simp [initSt]

theorem Inv_schedule {st : St} (hInv : Inv fromisoformat st) {now : Nat}
    (hclock : ∀ i ∈ st.issued, i < now) (dateTime subject email phone : String) :
    Inv fromisoformat (schedule_appointment fromisoformat st now dateTime subject email phone).2 := by
  have happt : ∀ j ∈ st.jobs, j.apptId ≠ now := by
    intro j hj heq
    exact absurd (hclock _ (hInv.appt_issued j hj)) (by omega)
  unfold schedule_appointment
  split
  · exact hInv
  · split
    · exact hInv
    · rename_i t hparse
      refine ⟨?_, ?_, ?_, ?_, ?_, ?_, ?_, ?_, ?_, ?_, ?_⟩
      · intro j hj
        rcases List.mem_append.mp hj with h | h
        · exact Nat.lt_succ_of_lt (hInv.jids_lt j h)
        · simp only [List.mem_singleton] at h
          subst h
          exact Nat.lt_succ_self _
      · intro j hj j2 hj2 hjid
        rcases List.mem_append.mp hj with h | h <;> rcases List.mem_append.mp hj2 with h2 | h2
        · exact hInv.jids_inj j h j2 h2 hjid
        · simp only [List.mem_singleton] at h2
          subst h2
          exact absurd hjid (Nat.ne_of_lt (hInv.jids_lt j h))
        · simp only [List.mem_singleton] at h
          subst h
          exact absurd hjid.symm (Nat.ne_of_lt (hInv.jids_lt j2 h2))
        · simp only [List.mem_singleton] at h h2
          rw [h, h2]
      · intro j hj j2 hj2 happ
        rcases List.mem_append.mp hj with h | h <;> rcases List.mem_append.mp hj2 with h2 | h2
        · exact hInv.appt_inj j h j2 h2 happ
        · simp only [List.mem_singleton] at h2
          subst h2
          exact absurd happ (happt j h)
        · simp only [List.mem_singleton] at h
          subst h
          exact absurd happ.symm (happt j2 h2)
        · simp only [List.mem_singleton] at h h2
          rw [h, h2]
      · intro j hj
        rcases List.mem_append.mp hj with h | h
        · exact List.mem_cons_of_mem _ (hInv.appt_issued j h)
        · simp only [List.mem_singleton] at h
          subst h
          exact List.mem_cons_self _ _
      · intro id jid hreg
        by_cases hid : id = now
        · subst hid
          simp only [if_pos, Option.some.injEq] at hreg
          subst hreg
          exact ⟨_, List.mem_append.mpr (Or.inr (List.mem_singleton.mpr rfl)), rfl, rfl, rfl⟩
        · simp only [if_neg hid] at hreg
          obtain ⟨j, hj, h1, h2, h3⟩ := hInv.reg_sound id jid hreg
          exact ⟨j, List.mem_append.mpr (Or.inl hj), h1, h2, h3⟩
      · intro j hj hkind
        rcases List.mem_append.mp hj with h | h
        · simp only [if_neg (happt j h)]
          exact hInv.rem_reg j h hkind
        · simp only [List.mem_singleton] at h
          subst h
          simp
      · intro id hsome
        by_cases hid : id = now
        · simp [hid]
        · simp only [if_neg hid] at hsome ⊢
          exact hInv.reg_pending id hsome
      · intro id hpend
        by_cases hid : id = now
        · simp [hid]
        · simp only [if_neg hid] at hpend ⊢
          exact hInv.pending_reg id hpend
      · intro j hj hkind
        rcases List.mem_append.mp hj with h | h
        · simp only [if_neg (happt j h)]
          exact hInv.fu_fired j h hkind
        · simp only [List.mem_singleton] at h
          subst h
          cases hkind
      · intro id
        by_cases hid : id = now
        · simp [hid]
        · simp only [if_neg hid, List.mem_cons]
          rw [hInv.status_issued id]
          exact ⟨Or.inr, fun h => h.elim (fun h' => absurd h' hid) (fun h' => h')⟩
      · intro j hj
        rcases List.mem_append.mp hj with h | h
        · exact hInv.parse_ok j h
        · simp only [List.mem_singleton] at h
          subst h
          simp [hparse]

theorem Inv_cancel {st : St} (hInv : Inv fromisoformat st) (appointment_id : Nat) :
    Inv fromisoformat (cancel_appointment st appointment_id).2 := by
  unfold cancel_appointment
  split
  · rename_i jid hreg
    obtain ⟨j0, hj0, hj0jid, hj0kind, hj0appt⟩ := hInv.reg_sound _ _ hreg
    have hmem : ∀ x, x ∈ st.jobs.filter (fun x => x.jid != jid) → x ∈ st.jobs ∧ x.jid ≠ jid := by
      intro x hx
      have h := List.mem_filter.mp hx
      exact ⟨h.1, by simpa using h.2⟩
    refine ⟨?_, ?_, ?_, ?_, ?_, ?_, ?_, ?_, ?_, ?_, ?_⟩
    · intro x hx; exact hInv.jids_lt x (hmem x hx).1
    · intro x hx y hy h; exact hInv.jids_inj x (hmem x hx).1 y (hmem y hy).1 h
    · intro x hx y hy h; exact hInv.appt_inj x (hmem x hx).1 y (hmem y hy).1 h
    · intro x hx; exact hInv.appt_issued x (hmem x hx).1
    · intro id2 jid2 hr2
      by_cases hid : id2 = appointment_id
      · subst hid; simp at hr2
      · simp only [if_neg hid] at hr2
        obtain ⟨j2, hj2, h1, h2, h3⟩ := hInv.reg_sound id2 jid2 hr2
        refine ⟨j2, List.mem_filter.mpr ⟨hj2, ?_⟩, h1, h2, h3⟩
        have hne : j2.jid ≠ jid := by
          intro he
          have hj2j0 : j2 = j0 := hInv.jids_inj j2 hj2 j0 hj0 (he.trans hj0jid.symm)
          rw [hj2j0] at h3
          exact hid (hj0appt ▸ h3 ▸ rfl)
        simpa using hne
    · intro x hx hk
      obtain ⟨hxm, hxjid⟩ := hmem x hx
      have hne : x.apptId ≠ appointment_id := by
        intro he
        have hr := hInv.rem_reg x hxm hk
        rw [he, hreg] at hr
        exact hxjid (Option.some_inj.mp hr).symm
      simp only [if_neg hne]
      exact hInv.rem_reg x hxm hk
    · intro id2 hsome
      by_cases hid : id2 = appointment_id
      · subst hid; simp at hsome
      · simp only [if_neg hid] at hsome ⊢
        exact hInv.reg_pending id2 hsome
    · intro id2 hpend
      by_cases hid : id2 = appointment_id
      · subst hid; simp at hpend
      · simp only [if_neg hid] at hpend ⊢
        exact hInv.pending_reg id2 hpend
    · intro x hx hk
      obtain ⟨hxm, _⟩ := hmem x hx
      have h1 := hInv.fu_fired x hxm hk
      have hne : x.apptId ≠ appointment_id := by
        intro he
        have h2 := hInv.reg_pending appointment_id (by simp [hreg])
        rw [he] at h1
        rw [h1] at h2
        simp at h2
      simp only [if_neg hne]
      exact h1
    · intro id2
      by_cases hid : id2 = appointment_id
      · subst hid
        have hmemI : id2 ∈ st.issued := (hInv.status_issued _).mp (by
          rw [hInv.reg_pending _ (by simp [hreg])]; rfl)
        simp [hmemI]
      · simp only [if_neg hid]
        exact hInv.status_issued id2
    · intro x hx; exact hInv.parse_ok x (hmem x hx).1
  · exact hInv

theorem Inv_fire {st : St} (hInv : Inv fromisoformat st) (jid : Nat) :
    Inv fromisoformat (fireJob fromisoformat st jid) := by
  unfold fireJob
  split
  · exact hInv
  · rename_i j hfind
    have hjmem : j ∈ st.jobs := List.mem_of_find?_eq_some hfind
    have hjid : j.jid = jid := by
      have h := List.find?_some hfind
      simpa using h
    subst hjid
    have hmemf : ∀ x, x ∈ st.jobs.filter (fun x => x.jid != j.jid) →
        x ∈ st.jobs ∧ x.jid ≠ j.jid := by
      intro x hx
      have h := List.mem_filter.mp hx
      exact ⟨h.1, by simpa using h.2⟩
    have happne : ∀ x, x ∈ st.jobs.filter (fun x => x.jid != j.jid) → x.apptId ≠ j.apptId := by
      intro x hx heq
      have hxj : x = j := hInv.appt_inj x (hmemf x hx).1 j hjmem heq
      exact (hmemf x hx).2 (by rw [hxj])
    cases hk : j.kind
    case followUp =>
      unfold send_late_reminder
      dsimp only
      have hfu := hInv.fu_fired j hjmem hk
      refine ⟨?_, ?_, ?_, ?_, ?_, ?_, ?_, ?_, ?_, ?_, ?_⟩
      · intro x hx; exact hInv.jids_lt x (hmemf x hx).1
      · intro x hx y hy h; exact hInv.jids_inj x (hmemf x hx).1 y (hmemf y hy).1 h
      · intro x hx y hy h; exact hInv.appt_inj x (hmemf x hx).1 y (hmemf y hy).1 h
      · intro x hx; exact hInv.appt_issued x (hmemf x hx).1
      · intro id2 jid2 hr2
        obtain ⟨j2, hj2, h1, h2, h3⟩ := hInv.reg_sound id2 jid2 hr2
        refine ⟨j2, List.mem_filter.mpr ⟨hj2, ?_⟩, h1, h2, h3⟩
        have hne : j2.jid ≠ j.jid := by
          intro he
          have hj2j : j2 = j := hInv.jids_inj j2 hj2 j hjmem he
          rw [hj2j] at h2
          rw [hk] at h2
          cases h2
        simpa using hne
      · intro x hx hkx
        exact hInv.rem_reg x (hmemf x hx).1 hkx
      · intro id2 hsome
        have hp := hInv.reg_pending id2 hsome
        have hne : id2 ≠ j.apptId := by
          intro he
          rw [he, hfu] at hp
          cases hp
        simp only [if_neg hne]
        exact hp
      · intro id2 hpend
        by_cases hid : id2 = j.apptId
        · simp [hid] at hpend
        · simp only [if_neg hid] at hpend
          exact hInv.pending_reg id2 hpend
      · intro x hx hkx
        have hne : x.apptId ≠ j.apptId := happne x hx
        simp only [if_neg hne]
        exact hInv.fu_fired x (hmemf x hx).1 hkx
      · intro id2
        by_cases hid : id2 = j.apptId
        · have hmemI : j.apptId ∈ st.issued := hInv.appt_issued j hjmem
          simp [hid, hmemI]
        · simp only [if_neg hid]
          exact hInv.status_issued id2
      · intro x hx; exact hInv.parse_ok x (hmemf x hx).1
    case reminder =>
      have hps := hInv.parse_ok j hjmem
      obtain ⟨t, hsome⟩ := Option.isSome_iff_exists.mp hps
      have hreg0 := hInv.rem_reg j hjmem hk
      have hpend0 := hInv.reg_pending j.apptId (by simp [hreg0])
      simp only [send_reminder, hsome]
      by_cases hch : (truthy j.email || truthy j.phone) = true
      · rw [if_pos hch]
        dsimp only
        refine ⟨?_, ?_, ?_, ?_, ?_, ?_, ?_, ?_, ?_, ?_, ?_⟩
        · intro x hx
          rcases List.mem_append.mp hx with h | h
          · exact Nat.lt_succ_of_lt (hInv.jids_lt x (hmemf x h).1)
          · simp only [List.mem_singleton] at h
            subst h
            exact Nat.lt_succ_self _
        · intro x hx y hy h
          rcases List.mem_append.mp hx with h1 | h1 <;> rcases List.mem_append.mp hy with h2 | h2
          · exact hInv.jids_inj x (hmemf x h1).1 y (hmemf y h2).1 h
          · simp only [List.mem_singleton] at h2
            subst h2
            exact absurd h (Nat.ne_of_lt (hInv.jids_lt x (hmemf x h1).1))
          · simp only [List.mem_singleton] at h1
            subst h1
            exact absurd h.symm (Nat.ne_of_lt (hInv.jids_lt y (hmemf y h2).1))
          · simp only [List.mem_singleton] at h1 h2
            rw [h1, h2]
        · intro x hx y hy h
          rcases List.mem_append.mp hx with h1 | h1 <;> rcases List.mem_append.mp hy with h2 | h2
          · exact hInv.appt_inj x (hmemf x h1).1 y (hmemf y h2).1 h
          · simp only [List.mem_singleton] at h2
            subst h2
            exact absurd h (happne x h1)
          · simp only [List.mem_singleton] at h1
            subst h1
            exact absurd h.symm (happne y h2)
          · simp only [List.mem_singleton] at h1 h2
            rw [h1, h2]
        · intro x hx
          rcases List.mem_append.mp hx with h | h
          · exact hInv.appt_issued x (hmemf x h).1
          · simp only [List.mem_singleton] at h
            subst h
            exact hInv.appt_issued j hjmem
        · intro id2 jid2 hr2
          by_cases hid : id2 = j.apptId
          · simp [hid] at hr2
          · simp only [if_neg hid] at hr2
            obtain ⟨j2, hj2, h1, h2, h3⟩ := hInv.reg_sound id2 jid2 hr2
            refine ⟨j2, List.mem_append.mpr (Or.inl (List.mem_filter.mpr ⟨hj2, ?_⟩)), h1, h2, h3⟩
            have hne : j2.jid ≠ j.jid := by
              intro he
              have hj2j : j2 = j := hInv.jids_inj j2 hj2 j hjmem he
              rw [hj2j] at h3
              exact hid h3.symm
            simpa using hne
        · intro x hx hkx
          rcases List.mem_append.mp hx with h | h
          · have hne : x.apptId ≠ j.apptId := happne x h
            simp only [if_neg hne]
            exact hInv.rem_reg x (hmemf x h).1 hkx
          · simp only [List.mem_singleton] at h
            subst h
            cases hkx
        · intro id2 hsome2
          by_cases hid : id2 = j.apptId
          · simp [hid] at hsome2
          · simp only [if_neg hid] at hsome2 ⊢
            exact hInv.reg_pending id2 hsome2
        · intro id2 hpend
          by_cases hid : id2 = j.apptId
          · simp [hid] at hpend
          · simp only [if_neg hid] at hpend ⊢
            exact hInv.pending_reg id2 hpend
        · intro x hx hkx
          rcases List.mem_append.mp hx with h | h
          · have hne : x.apptId ≠ j.apptId := happne x h
            simp only [if_neg hne]
            exact hInv.fu_fired x (hmemf x h).1 hkx
          · simp only [List.mem_singleton] at h
            subst h
            simp
        · intro id2
          by_cases hid : id2 = j.apptId
          · have hmemI : j.apptId ∈ st.issued := hInv.appt_issued j hjmem
            simp [hid, hmemI]
          · simp only [if_neg hid]
            exact hInv.status_issued id2
        · intro x hx
          rcases List.mem_append.mp hx with h | h
          · exact hInv.parse_ok x (hmemf x h).1
          · simp only [List.mem_singleton] at h
            subst h
            simp [hsome]
      · rw [if_neg hch]
        dsimp only
        refine ⟨?_, ?_, ?_, ?_, ?_, ?_, ?_, ?_, ?_, ?_, ?_⟩
        · intro x hx; exact hInv.jids_lt x (hmemf x hx).1
        · intro x hx y hy h; exact hInv.jids_inj x (hmemf x hx).1 y (hmemf y hy).1 h
        · intro x hx y hy h; exact hInv.appt_inj x (hmemf x hx).1 y (hmemf y hy).1 h
        · intro x hx; exact hInv.appt_issued x (hmemf x hx).1
        · intro id2 jid2 hr2
          by_cases hid : id2 = j.apptId
          · simp [hid] at hr2
          · simp only [if_neg hid] at hr2
            obtain ⟨j2, hj2, h1, h2, h3⟩ := hInv.reg_sound id2 jid2 hr2
            refine ⟨j2, List.mem_filter.mpr ⟨hj2, ?_⟩, h1, h2, h3⟩
            have hne : j2.jid ≠ j.jid := by
              intro he
              have hj2j : j2 = j := hInv.jids_inj j2 hj2 j hjmem he
              rw [hj2j] at h3
              exact hid h3.symm
            simpa using hne
        · intro x hx hkx
          have hne : x.apptId ≠ j.apptId := happne x hx
          simp only [if_neg hne]
          exact hInv.rem_reg x (hmemf x hx).1 hkx
        · intro id2 hsome2
          by_cases hid : id2 = j.apptId
          · simp [hid] at hsome2
          · simp only [if_neg hid] at hsome2 ⊢
            exact hInv.reg_pending id2 hsome2
        · intro id2 hpend
          by_cases hid : id2 = j.apptId
          · simp [hid] at hpend
          · simp only [if_neg hid] at hpend ⊢
            exact hInv.pending_reg id2 hpend
        · intro x hx hkx
          have hne : x.apptId ≠ j.apptId := happne x hx
          simp only [if_neg hne]
          exact hInv.fu_fired x (hmemf x hx).1 hkx
        · intro id2
          by_cases hid : id2 = j.apptId
          · have hmemI : j.apptId ∈ st.issued := hInv.appt_issued j hjmem
            simp [hid, hmemI]
          · simp only [if_neg hid]
            exact hInv.status_issued id2
        · intro x hx; exact hInv.parse_ok x (hmemf x hx).1
theorem Inv_step {st st' : St} (hInv : Inv fromisoformat st)
    (hstep : Step fromisoformat st st') : Inv fromisoformat st' := by
  cases hstep with
  | schedule now dateTime subject email phone hclock =>
      exact Inv_schedule fromisoformat hInv hclock dateTime subject email phone
  | fire jid hj => exact Inv_fire fromisoformat hInv jid
  | cancel appointment_id => exact Inv_cancel fromisoformat hInv appointment_id

/-! ## Claim theorems -/

/-- The status transitions the specification permits for a single step:
unchanged, first issuance to `pending`, the forward chain
`pending → reminderFired → followUpFired`, and cancellation from `pending`
or `reminderFired`.  In particular `followUpFired` and `cancelled` appear
only on the unchanged branch, so no step leaves them. -/
def statusStepOK (a b : Option Status) : Prop :=
  a = b ∨
  (a = none ∧ b = some Status.pending) ∨
  (a = some Status.pending ∧ b = some Status.reminderFired) ∨
  (a = some Status.reminderFired ∧ b = some Status.followUpFired) ∨
  ((a = some Status.pending ∨ a = some Status.reminderFired) ∧ b = some Status.cancelled)

/-- Claim C2: The appointment status takes the values `pending`,
`reminderFired`, `followUpFired`, `cancelled`; every scheduler operation
moves it only forward along
`pending → reminderFired → followUpFired`, with `cancelled` reachable only
from `pending` or `reminderFired`, and no operation changes the status of an
appointment in `followUpFired` or `cancelled`. -/
theorem C2_status_machine (fromisoformat : String → Option Int) {s s' : St}
    (hInv : Inv fromisoformat s) (hstep : Step fromisoformat s s') (a : Nat) :
    statusStepOK (s.status a) (s'.status a) := by
  unfold statusStepOK
  cases hstep with
  | schedule now dateTime subject email phone hclock =>
    by_cases hv : dateTime = "" ∨ subject = ""
    · simp [schedule_appointment, hv]
    · cases hp : fromisoformat (zrep dateTime) with
      | none => simp [schedule_appointment, hv, hp]
      | some t =>
        by_cases hid : a = now
        · have hnone : s.status a = none := by
            cases hs : s.status a with
            | none => rfl
            | some v =>
              exfalso
              have hmem : a ∈ s.issued := (hInv.status_issued a).mp (by simp [hs])
              rw [hid] at hmem
              exact absurd (hclock now hmem) (lt_irrefl _)
          refine Or.inr (Or.inl ⟨hnone, ?_⟩)
          simp [schedule_appointment, hv, hp, hid]
        · refine Or.inl ?_
          simp [schedule_appointment, hv, hp, if_neg hid]
  | fire jid hj =>
    obtain ⟨j, hjmem, hjid⟩ := hj
    subst hjid
    unfold fireJob
    rw [find?_eq_some_of_jid_inj hInv.jids_inj hjmem]
    cases hk : j.kind
    case followUp =>
      simp only [hk]
      unfold send_late_reminder
      dsimp only
      by_cases hid : a = j.apptId
      · refine Or.inr (Or.inr (Or.inr (Or.inl ⟨?_, by simp [hid]⟩)))
        rw [hid]
        exact hInv.fu_fired j hjmem hk
      · exact Or.inl (by simp [if_neg hid])
    case reminder =>
      obtain ⟨t, hsome⟩ := Option.isSome_iff_exists.mp (hInv.parse_ok j hjmem)
      have hpend : s.status j.apptId = some Status.pending :=
        hInv.reg_pending j.apptId (by simp [hInv.rem_reg j hjmem hk])
      simp only [hk]
      simp only [send_reminder, hsome]
      by_cases hch : (truthy j.email || truthy j.phone) = true
      · rw [if_pos hch]
        dsimp only
        by_cases hid : a = j.apptId
        · refine Or.inr (Or.inr (Or.inl ⟨?_, by simp [hid]⟩))
          rw [hid]; exact hpend
        · exact Or.inl (by simp [if_neg hid])
      · rw [if_neg hch]
        dsimp only
        by_cases hid : a = j.apptId
        · refine Or.inr (Or.inr (Or.inl ⟨?_, by simp [hid]⟩))
          rw [hid]; exact hpend
        · exact Or.inl (by simp [if_neg hid])
  | cancel appointment_id =>
    unfold cancel_appointment
    cases hreg : s.registry appointment_id with
    | some jid =>
      dsimp only
      by_cases hid : a = appointment_id
      · refine Or.inr (Or.inr (Or.inr (Or.inr ⟨Or.inl ?_, by simp [hid]⟩)))
        rw [hid]
        exact hInv.reg_pending appointment_id (by simp [hreg])
      · exact Or.inl (by simp [if_neg hid])
    | none => exact Or.inl rfl

/-- Witness for C2.  A first `schedule` step moves a fresh id from
unissued to `pending`, an allowed transition. -/
theorem C2_status_machine_witness :
    statusStepOK (initSt.status 5)
      ((schedule_appointment isoParse initSt 5 "2030-01-01T10:00:00Z" "Dentist" "a@b.com" "").2.status 5) :=
  C2_status_machine isoParse (Inv_init isoParse)
    (Step.schedule 5 "2030-01-01T10:00:00Z" "Dentist" "a@b.com" "" (by simp [initSt])) 5

/-- The state after scheduling one appointment (id 1000, reminder job 0,
email channel present) at `2030-01-01T10:00:00Z`. -/
def cexSt1 : St :=
  (schedule_appointment isoParse initSt 1000 "2030-01-01T10:00:00Z" "Dentist" "a@b.com" "").2

/-- The state after that appointment's reminder fired: the follow-up job is
in the queue, but `scheduled_jobs` no longer has an entry for id 1000. -/
def cexSt2 : St := fireJob isoParse cexSt1 0

/-- Counterexample to C1.  An appointment whose Reminder has fired but
whose FollowUp is still pending can NOT be cancelled: the follow-up job for
id 1000 is pending (exactly one), yet `cancel` answers `NotFound` (404),
contradicting the claim that such an appointment can be cancelled. -/
theorem C1_cancel_pending_followup_cex :
    (cancel_appointment cexSt2 1000).1 = CancelResp.notFound ∧
    (CancelResp.notFound).code = 404 ∧
    (cexSt2.jobs.filter (fun j => j.kind == JobKind.followUp && j.apptId == 1000)).length = 1 ∧
    cexSt2.status 1000 = some Status.reminderFired :=
  ⟨by decide, rfl, by decide, by decide⟩

/-- Amended C1:  `cancel(id)` removes the pending *Reminder* job for
`id` and returns success exactly when the registry holds an entry for `id`;
it returns `NotFound` exactly when no registry entry exists — which covers
ids never issued, appointments whose reminder already fired (even with a
FollowUp still pending), and appointments already cancelled.  A pending
FollowUp job is never removed by `cancel`. -/
theorem C1_cancel_amended (fromisoformat : String → Option Int) {st : St}
    (hInv : Inv fromisoformat st) (a : Nat) :
    ((cancel_appointment st a).1 = CancelResp.cancelled ↔ (st.registry a).isSome) ∧
    (∀ jid, st.registry a = some jid →
      (∃ j ∈ st.jobs, j.jid = jid ∧ j.kind = JobKind.reminder ∧ j.apptId = a) ∧
      (cancel_appointment st a).2.jobs = st.jobs.filter (fun x => x.jid != jid) ∧
      (cancel_appointment st a).2.registry a = none ∧
      (cancel_appointment st a).2.status a = some Status.cancelled) ∧
    (st.registry a = none → cancel_appointment st a = (CancelResp.notFound, st)) ∧
    (∀ j ∈ st.jobs, j.kind = JobKind.followUp → j ∈ (cancel_appointment st a).2.jobs) := by
  refine ⟨?_, ?_, ?_, ?_⟩
  · unfold cancel_appointment
    cases hreg : st.registry a <;> simp [hreg]
  · intro jid hreg
    obtain ⟨j, hjm, h1, h2, h3⟩ := hInv.reg_sound a jid hreg
    unfold cancel_appointment
    rw [hreg]
    exact ⟨⟨j, hjm, h1, h2, h3⟩, rfl, by simp, by simp⟩
  · intro hreg
    unfold cancel_appointment
    rw [hreg]
  · intro j hjm hk
    unfold cancel_appointment
    cases hreg : st.registry a with
    | none => simpa using hjm
    | some jid =>
      dsimp only
      obtain ⟨j0, hj0, hj0jid, hj0kind, hj0appt⟩ := hInv.reg_sound a jid hreg
      refine List.mem_filter.mpr ⟨hjm, ?_⟩
      have hne : j.jid ≠ jid := by
        intro he
        have hjj0 : j = j0 := hInv.jids_inj j hjm j0 hj0 (by rw [he, hj0jid])
        rw [hjj0, hj0kind] at hk
        cases hk
      simpa using hne

/-- Witness for C1.  Cancelling a never-issued id at the start state answers
`NotFound` and leaves the state unchanged. -/
theorem C1_cancel_amended_witness :
    cancel_appointment initSt 7 = (CancelResp.notFound, initSt) :=
  (C1_cancel_amended isoParse (Inv_init isoParse) 7).2.2.1 rfl

/-- Claim C3:  For every valid payload (truthy `dateTime` that parses, truthy
`subject`) with a future `scheduledAt`, under a strictly increasing wall
clock `schedule()` returns an appointment id distinct from every previously
issued id, and registers exactly one Reminder job for that id (and the
registry entry for it). -/
theorem C3_schedule_fresh_id (fromisoformat : String → Option Int) {st : St}
    (hInv : Inv fromisoformat st) {now : Nat} {dateTime subject email phone : String} {t : Int}
    (hclock : ∀ i ∈ st.issued, i < now)
    (hdt : dateTime ≠ "") (hsub : subject ≠ "")
    (hparse : fromisoformat (zrep dateTime) = some t)
    (hfuture : (now : Int) < t) :
    (schedule_appointment fromisoformat st now dateTime subject email phone).1 =
      SchedResp.success now ∧
    now ∉ st.issued ∧
    ((schedule_appointment fromisoformat st now dateTime subject email phone).2.jobs.filter
       (fun j => j.kind == JobKind.reminder && j.apptId == now)).length = 1 ∧
    (schedule_appointment fromisoformat st now dateTime subject email phone).2.registry now =
      some st.nextJid := by
  have hnotin : now ∉ st.issued := fun h => absurd (hclock now h) (lt_irrefl _)
  have hcond : ¬(dateTime = "" ∨ subject = "") := by
    rintro (h | h)
    exacts [hdt h, hsub h]
  refine ⟨?_, hnotin, ?_, ?_⟩
  · simp [schedule_appointment, hcond, hparse]
  · simp only [schedule_appointment, if_neg hcond, hparse]
    rw [List.filter_append]
    have h1 : st.jobs.filter (fun j => j.kind == JobKind.reminder && j.apptId == now) = [] := by
      rw [List.filter_eq_nil_iff]
      intro j hj
      have hne : j.apptId ≠ now := fun he => hnotin (he ▸ hInv.appt_issued j hj)
      simp [hne]
    rw [h1]
    simp
  · simp [schedule_appointment, hcond, hparse]

/-- Witness for C3. -/
theorem C3_schedule_fresh_id_witness :
    (∀ i ∈ initSt.issued, i < 5) ∧ "2030-01-01T10:00:00Z" ≠ "" ∧ "Dentist" ≠ "" ∧
    isoParse (zrep "2030-01-01T10:00:00Z") = some 1893492000 ∧ ((5 : Nat) : Int) < 1893492000 ∧
    (schedule_appointment isoParse initSt 5 "2030-01-01T10:00:00Z" "Dentist" "a@b.com" "").1 =
      SchedResp.success 5 := by
  refine ⟨by simp [initSt], by decide, by decide, by decide, by decide, ?_⟩
  exact (@C3_schedule_fresh_id isoParse initSt (Inv_init isoParse) 5 "2030-01-01T10:00:00Z"
    "Dentist" "a@b.com" "" 1893492000 (by simp [initSt]) (by decide) (by decide) (by decide)
    (by decide)).1

/-- Claim C4:  When a Reminder job fires for an appointment with at least one
truthy contact channel, exactly one FollowUp job results for that
appointment, and its fire time is the parsed `scheduledAt` plus 120 seconds;
with no truthy channel, no FollowUp job results. -/
theorem C4_followup_scheduling (fromisoformat : String → Option Int) {st : St}
    (hInv : Inv fromisoformat st) {j : Job} {t : Int}
    (hj : j ∈ st.jobs) (hk : j.kind = JobKind.reminder)
    (ht : fromisoformat (zrep j.datetimeStr) = some t) :
    ((truthy j.email || truthy j.phone) = true →
      (fireJob fromisoformat st j.jid).jobs.filter
          (fun x => x.kind == JobKind.followUp && x.apptId == j.apptId) =
        [{ jid := st.nextJid, kind := JobKind.followUp, runDate := t + 120, apptId := j.apptId,
           subject := j.subject, email := j.email, phone := j.phone,
           datetimeStr := j.datetimeStr }]) ∧
    ((truthy j.email || truthy j.phone) = false →
      (fireJob fromisoformat st j.jid).jobs.filter
          (fun x => x.kind == JobKind.followUp && x.apptId == j.apptId) = []) := by
  have hfind := find?_eq_some_of_jid_inj hInv.jids_inj hj
  have hnofu : (st.jobs.filter (fun x => x.jid != j.jid)).filter
      (fun x => x.kind == JobKind.followUp && x.apptId == j.apptId) = [] := by
    rw [List.filter_eq_nil_iff]
    intro x hx hcontra
    have hxm := (List.mem_filter.mp hx).1
    have hxne : x.jid ≠ j.jid := by simpa using (List.mem_filter.mp hx).2
    simp only [Bool.and_eq_true, beq_iff_eq] at hcontra
    have hxj : x = j := hInv.appt_inj x hxm j hj hcontra.2
    exact hxne (by rw [hxj])
  constructor
  · intro hch
    unfold fireJob
    rw [hfind]
    simp only [hk]
    simp only [send_reminder, ht]
    rw [if_pos hch]
    dsimp only
    rw [List.filter_append, hnofu]
    simp
  · intro hch
    unfold fireJob
    rw [hfind]
    simp only [hk]
    simp only [send_reminder, ht]
    rw [if_neg (by simp [hch])]
    dsimp only
    exact hnofu

/-- Witness for C4.  Firing the reminder of the one scheduled appointment
(email channel present) yields exactly the follow-up job at
`scheduledAt + 120s`. -/
theorem C4_followup_scheduling_witness :
    (truthy "a@b.com" || truthy "") = true ∧
    ((fireJob isoParse
        (schedule_appointment isoParse initSt 1000 "2030-01-01T10:00:00Z" "Dentist" "a@b.com" "").2
        0).jobs.filter (fun x => x.kind == JobKind.followUp && x.apptId == 1000)) =
      [{ jid := 1, kind := JobKind.followUp, runDate := 1893492120, apptId := 1000,
         subject := "Dentist", email := "a@b.com", phone := "",
         datetimeStr := "2030-01-01T10:00:00Z" }] := by
  refine ⟨by decide, ?_⟩
  have h := @C4_followup_scheduling isoParse
    (schedule_appointment isoParse initSt 1000 "2030-01-01T10:00:00Z" "Dentist" "a@b.com" "").2
    (@Inv_schedule isoParse initSt (Inv_init isoParse) 1000 (by simp [initSt])
      "2030-01-01T10:00:00Z" "Dentist" "a@b.com" "")
    { jid := 0, kind := JobKind.reminder, runDate := 1893492000, apptId := 1000,
      subject := "Dentist", email := "a@b.com", phone := "",
      datetimeStr := "2030-01-01T10:00:00Z" }
    1893492000 (by decide) (by decide) (by decide)
  exact h.1 (by decide)

/-- In a five-part concatenation, the second part occurs contiguously. -/
theorem occurs5_2 (a b c d e : String) :
    ∃ pre suf, a ++ b ++ c ++ d ++ e = pre ++ b ++ suf :=
  ⟨a, c ++ d ++ e, by simp [String.append_assoc]⟩

/-- In a five-part concatenation, the fourth part occurs contiguously. -/
theorem occurs5_4 (a b c d e : String) :
    ∃ pre suf, a ++ b ++ c ++ d ++ e = pre ++ d ++ suf :=
  ⟨a ++ b ++ c, e, by simp [String.append_assoc]⟩

/-- Claim C5:  The reminder notification content (email body and SMS body)
contains the exact subject string and the `scheduledAt` time rendered by
`format_datetime` in the UTC+5:30 display timezone with 12-hour format; and
concretely `2025-03-10T15:00:00Z` renders as
`"Monday, March 10, 2025 at 08:30 PM"`. -/
theorem C5_reminder_content (subject ds r : String)
    (h : format_datetime ds = some r) :
    (∃ pre suf, reminder_email_html subject r = pre ++ subject ++ suf) ∧
    (∃ pre suf, reminder_email_html subject r = pre ++ r ++ suf) ∧
    (∃ pre suf, reminder_sms subject r = pre ++ subject ++ suf) ∧
    (∃ pre suf, reminder_sms subject r = pre ++ r ++ suf) ∧
    format_datetime "2025-03-10T15:00:00Z" = some "Monday, March 10, 2025 at 08:30 PM" := by
  unfold reminder_email_html reminder_sms
  exact ⟨occurs5_2 _ _ _ _ _, occurs5_4 _ _ _ _ _, occurs5_2 _ _ _ _ _, occurs5_4 _ _ _ _ _,
    by decide⟩

/-- Witness for C5. -/
theorem C5_reminder_content_witness :
    format_datetime "2025-03-10T15:00:00Z" = some "Monday, March 10, 2025 at 08:30 PM" ∧
    (∃ pre suf, reminder_email_html "Dentist" "Monday, March 10, 2025 at 08:30 PM" =
      pre ++ "Dentist" ++ suf) := by
  refine ⟨by decide, ?_⟩
  exact (C5_reminder_content "Dentist" "2025-03-10T15:00:00Z"
    "Monday, March 10, 2025 at 08:30 PM" (by decide)).1

/-- Claim C6:  `validate_appointment_data` returns ok exactly when the date
strptimes as `%Y-%m-%d`, the time as `%H:%M`, the subject is truthy, a
truthy email passes `validate_email`, and a truthy phone passes
`validate_phone`; on failure it returns the single reason of the first
failing check in source order, never an aggregate. -/
theorem C6_validator_first_failure (d : ApptData) :
    (((validate_appointment_data d).1 = true) ↔
      (d.date ≠ "" ∧ d.time ≠ "" ∧ d.subject ≠ "" ∧
       (validate_datetime d.date d.time).1 = true ∧
       (d.email ≠ "" → validate_email d.email = true) ∧
       (d.phone ≠ "" → validate_phone d.phone = true))) ∧
    (d.date = "" → validate_appointment_data d = (false, "Date is required")) ∧
    (d.date ≠ "" → d.time = "" → validate_appointment_data d = (false, "Time is required")) ∧
    (d.date ≠ "" → d.time ≠ "" → d.subject = "" →
      validate_appointment_data d = (false, "Subject is required")) ∧
    (d.date ≠ "" → d.time ≠ "" → d.subject ≠ "" →
      (validate_datetime d.date d.time).1 = false →
      validate_appointment_data d = (false, (validate_datetime d.date d.time).2)) ∧
    (d.date ≠ "" → d.time ≠ "" → d.subject ≠ "" →
      (validate_datetime d.date d.time).1 = true →
      d.email ≠ "" → validate_email d.email = false →
      validate_appointment_data d = (false, "Invalid email format")) ∧
    (d.date ≠ "" → d.time ≠ "" → d.subject ≠ "" →
      (validate_datetime d.date d.time).1 = true →
      (d.email = "" ∨ validate_email d.email = true) →
      d.phone ≠ "" → validate_phone d.phone = false →
      validate_appointment_data d = (false, "Invalid phone number format")) ∧
    ((validate_appointment_data d).1 = true → validate_appointment_data d = (true, "")) := by
  simp only [validate_appointment_data]
  split_ifs with h1 h2 h3 h4 h5 h6 <;> simp_all

/-- Claim C7:  When the SMS credentials were absent at process start,
`send_sms` returns `False` for every input, without a delivery attempt and
without any other side effect (the transport state is unchanged). -/
theorem C7_sms_disabled (sid tok num : String) (importOk transportOk : Bool)
    (st : SmsState) (to_phone message : String)
    (habsent : sid = "" ∨ tok = "" ∨ num = "") :
    send_sms ⟨sid, tok, num, importOk⟩ transportOk st to_phone message = (false, st) := by
  have h : sms_enabled ⟨sid, tok, num, importOk⟩ = false := by
    rcases habsent with h | h | h <;> simp [sms_enabled, truthy, h]
  simp [send_sms, h]

/-- Witness for C7. -/
theorem C7_sms_disabled_witness :
    (("" : String) = "" ∨ ("sid" : String) = "" ∨ ("+1555" : String) = "") ∧
    send_sms ⟨"", "sid", "+1555", true⟩ true ⟨[], []⟩ "+15551234567" "hello" =
      (false, ⟨[], []⟩) :=
  ⟨Or.inl rfl,
    C7_sms_disabled "" "sid" "+1555" true true ⟨[], []⟩ "+15551234567" "hello" (Or.inl rfl)⟩

/-- Claim C8:  `send_email` never lets an exception escape: its result is a
`Bool` computed by handlers covering authentication errors, other SMTP
errors, and every other exception (each yielding `False`), and it returns
`True` exactly when the whole `try` body — ending in the `send_message`
hand-off to the transport — completed without an exception. -/
theorem C8_send_email_no_raise (env : SmtpEnv) :
    (send_email env = true ↔ send_email_body env = Except.ok ()) ∧
    (∀ e, send_email_body env = Except.error e → send_email env = false) := by
  constructor
  · cases h : send_email_body env with
    | ok u => cases u; simp [send_email, h]
    | error e => cases e <;> simp [send_email, h]
  · intro e he
    cases e <;> simp [send_email, he]

/-- Claim C9:  A schedule request with truthy subject and a truthy `dateTime`
that `fromisoformat` cannot parse (after the `Z` replacement) is answered
with HTTP 500 carrying the exception text — not a 400 validation error —
and the state is unchanged: no Reminder job is registered. -/
theorem C9_unparseable_datetime_500 (fromisoformat : String → Option Int) (st : St) (now : Nat)
    (dateTime subject email phone : String)
    (hdt : dateTime ≠ "") (hsub : subject ≠ "")
    (hparse : fromisoformat (zrep dateTime) = none) :
    schedule_appointment fromisoformat st now dateTime subject email phone =
      (SchedResp.serverError (isoErrMsg (zrep dateTime)), st) ∧
    (SchedResp.serverError (isoErrMsg (zrep dateTime))).code = 500 ∧
    (SchedResp.badRequest "Missing required fields").code = 400 := by
  have hcond : ¬(dateTime = "" ∨ subject = "") := by
    rintro (h | h)
    exacts [hdt h, hsub h]
  exact ⟨by simp [schedule_appointment, hcond, hparse], rfl, rfl⟩

/-- Witness for C9. -/
theorem C9_unparseable_datetime_500_witness :
    ("not-a-date" : String) ≠ "" ∧ ("Dentist" : String) ≠ "" ∧
    isoParse (zrep "not-a-date") = none ∧
    schedule_appointment isoParse initSt 3 "not-a-date" "Dentist" "a@b.com" "" =
      (SchedResp.serverError (isoErrMsg (zrep "not-a-date")), initSt) := by
  refine ⟨by decide, by decide, by decide, ?_⟩
  exact (C9_unparseable_datetime_500 isoParse initSt 3 "not-a-date" "Dentist" "a@b.com" ""
    (by decide) (by decide) (by decide)).1

/-- Counterexample to C10.  `sanitize_user_input` can return a string with
leading and trailing whitespace: the input `"< hi <"` (length under the
default maximum 500) sanitises to `" hi "`, which starts and ends with a
space — refuting the claim that the output has no leading or trailing
whitespace. -/
theorem C10_sanitize_whitespace_cex :
    sanitize_user_input_default "< hi <" = " hi " ∧
    (sanitize_user_input "< hi <" 500).data.head? = some ' ' ∧
    (sanitize_user_input "< hi <" 500).data.getLast? = some ' ' :=
  ⟨by decide, by decide, by decide⟩

/-- Amended C10:  For every input string and maximum length, the
output of `sanitize_user_input` contains no `<` and no `>`, has length at
most the maximum (500 for the default entry point), and empty (falsy) input
yields the empty string.  (Leading or trailing whitespace can survive when
truncation or bracket removal exposes it.) -/
theorem C10_sanitize_amended (text : String) (max_length : Nat) :
    (∀ c ∈ (sanitize_user_input text max_length).data, c ≠ '<' ∧ c ≠ '>') ∧
    (sanitize_user_input text max_length).length ≤ max_length ∧
    (text = "" → sanitize_user_input text max_length = "") ∧
    sanitize_user_input_default text = sanitize_user_input text 500 := by
  refine ⟨?_, ?_, ?_, rfl⟩
  · intro c hc
    by_cases h : text = ""
    · simp [sanitize_user_input, h] at hc
    · simp only [sanitize_user_input, if_neg h] at hc
      have h2 := (List.mem_filter.mp hc).2
      simp only [Bool.and_eq_true, bne_iff_ne, ne_eq] at h2
      exact h2
  · by_cases h : text = ""
    · simp [sanitize_user_input, h]
    · simp only [sanitize_user_input, if_neg h]
      refine le_trans (List.length_filter_le _ _) ?_
      split
      · rw [List.length_take]
        exact min_le_left _ _
      · rename_i hle
        exact Nat.le_of_not_lt hle
  · intro h
    simp [sanitize_user_input, h]

end ARBot
